import Mathlib

/-!
Shallow embedding of src/database.py, a data-access layer over a single
SQLite table defs(server, command, def), and proofs of its specified
properties. The contextmanager connect is modelled as a combinator over an
explicit store state, with an engine-failure mode saying where, if
anywhere, sqlite3 raises during the scoped connection.
-/

namespace Database

/-- A row of the defs table: (server, command, def). The def column is
called defn here because def is a Lean keyword. -/
structure Row where
  server : Int
  command : String
  defn : String
  deriving DecidableEq

/-- Observable state of the store file: the schema catalog (the table
names recorded in sqlite_master with type table) and the rows of the defs
table in rowid (insertion) order. -/
structure Store where
  tables : List String
  defs : List Row
  deriving DecidableEq

/-- Where, if anywhere, the engine raises during one scoped connection:
the call sqlite3.connect(path) raises, the single cursor.execute inside
the with block raises an sqlite3.Error, or no engine error occurs. -/
inductive Failure where
  | openFail
  | execFail
  | noFail
  deriving DecidableEq

/-- What the caller of a public operation observes: a returned value, or a
Python exception (named by its class) propagating out of the call. -/
inductive CallResult (α : Type) where
  | ret (v : α)
  | exn (e : String)
  deriving DecidableEq

/-- How the with block governed by connect ends, before the enclosing
function continues: the body ran to completion with a value; or an
sqlite3.Error thrown into the generator was caught there, so the with
statement suppresses it and the enclosing function resumes after the with
block; or an exception propagated out. -/
inductive BlockResult (α : Type) where
  | ok (v : α)
  | suppressed
  | raised (e : String)
  deriving DecidableEq

/-- State and trace left behind by one scoped connection: the store on
disk after the handle is released, the way the with block ended, whether a
handle was created, whether db.close() completed, and whether the except
branch printed a caught engine error. -/
structure ConnResult (α : Type) where
  disk : Store
  result : BlockResult α
  opened : Bool
  closed : Bool
  printedError : Bool
  deriving DecidableEq

/-- Model of the contextmanager connect(path, commit=False). The body of
the with statement is a function from the connection view of the store to
the updated view and the value of the block. Following the contextlib
semantics of the generator in the source:
openFail: sqlite3.connect(path) raises; the except branch catches and
prints the error, then the finally branch evaluates db.close() with the
local db never bound, so an UnboundLocalError propagates to the caller and
no handle exists. execFail: the execute inside the body raises an
sqlite3.Error; it is thrown into the generator at the yield, caught and
printed there; the else branch (commit or rollback) is skipped and the
finally branch closes the handle, discarding pending changes; the with
statement suppresses the exception, so the enclosing function resumes
after the with block. noFail: the body completes; the generator resumes,
commits the pending view when commit is true and rolls it back otherwise,
then closes the handle. -/
def connect {α : Type} (st : Store) (fail : Failure)
    (body : Store → Store × α) (commit : Bool := false) : ConnResult α :=
  match fail with
  | .openFail =>
      { disk := st, result := .raised "UnboundLocalError",
        opened := false, closed := false, printedError := true }
  | .execFail =>
      { disk := st, result := .suppressed,
        opened := true, closed := true, printedError := true }
  | .noFail =>
      let r := body st
      { disk := if commit then r.1 else st, result := .ok r.2,
        opened := true, closed := true, printedError := false }

/-- The WHERE server=? AND command=? predicate shared by get_def and
del_def. -/
def matchesKey (server : Int) (command : String) (r : Row) : Bool :=
  r.server == server && r.command == command

/-- Model of sql_execute(path, sql, commit=False): runs one raw SQL
statement inside a scoped connection and returns all fetched rows. The raw
text is not interpreted here; the statement is embedded as its denotation
stmt, mapping the connection view to the updated view and the fetched
rows. When a suppressed engine error makes the function resume after the
with block it falls off the end and returns Python None, modelled as
Option.none around the row type. -/
def sql_execute {ρ : Type} (st : Store) (stmt : Store → Store × ρ)
    (fail : Failure) (commit : Bool := false) :
    Store × CallResult (Option ρ) :=
  let r := connect st fail stmt commit
  match r.result with
  | .ok v => (r.disk, .ret (some v))
  | .suppressed => (r.disk, .ret none)
  | .raised e => (r.disk, .exn e)

/-- Model of list_tables(path, commit=False): SELECT name FROM
sqlite_master WHERE type is table, then fetchall. The fetched rows are the
catalog table names (the one-element tuple around each name is dropped).
On a suppressed engine error the function falls off the end of the with
block and returns Python None. -/
def list_tables (st : Store) (fail : Failure) (commit : Bool := false) :
    Store × CallResult (Option (List String)) :=
  let r := connect st fail (fun view => (view, view.tables)) commit
  match r.result with
  | .ok v => (r.disk, .ret (some v))
  | .suppressed => (r.disk, .ret none)
  | .raised e => (r.disk, .exn e)

/-- Model of ins_def(path, server, command, definition, commit=False):
INSERT INTO defs (server, command, def) VALUES (?, ?, ?) inside a scoped
connection; the new row is appended in rowid order. The with block ends
with return True; the statement return False after the with block runs
exactly when a suppressed engine error made the function resume there. -/
def ins_def (st : Store) (server : Int) (command definition : String)
    (fail : Failure) (commit : Bool := false) : Store × CallResult Bool :=
  let r := connect st fail
    (fun view =>
      ({ view with defs := view.defs ++ [⟨server, command, definition⟩] },
        true))
    commit
  match r.result with
  | .ok v => (r.disk, .ret v)
  | .suppressed => (r.disk, .ret false)
  | .raised e => (r.disk, .exn e)

/-- Model of get_def(path, server, command): SELECT def FROM defs WHERE
server=? AND command=?, then fetchone; returns the def column of the first
matching row in scan (rowid) order, or Python None when no row matches or
when an engine error was suppressed. connect is called with its default
commit, so the connection is always rolled back. -/
def get_def (st : Store) (server : Int) (command : String)
    (fail : Failure) : Store × CallResult (Option String) :=
  let r := connect st fail
    (fun view =>
      (view,
        (view.defs.filter (matchesKey server command)).head?.map Row.defn))
  match r.result with
  | .ok v => (r.disk, .ret v)
  | .suppressed => (r.disk, .ret none)
  | .raised e => (r.disk, .exn e)

/-- Model of del_def(path, server, command, commit=False): DELETE FROM
defs WHERE server=? AND command=? inside a scoped connection; every
matching row leaves the view. The function body ends with the execute, so
each non-raising path returns Python None, modelled as Unit. -/
def del_def (st : Store) (server : Int) (command : String)
    (fail : Failure) (commit : Bool := false) : Store × CallResult Unit :=
  let r := connect st fail
    (fun view =>
      ({ view with
          defs := view.defs.filter (fun row => !(matchesKey server command row)) },
        ()))
    commit
  match r.result with
  | .ok _ => (r.disk, .ret ())
  | .suppressed => (r.disk, .ret ())
  | .raised e => (r.disk, .exn e)

/-- A freshly provisioned store: the schema catalog holds exactly the defs
table and the defs table holds no rows. -/
def freshStore : Store := { tables := ["defs"], defs := [] }

/-- A concrete store used in witnesses: two rows match (42, hello), one
before the other in rowid order, plus one unrelated row. -/
def sampleStore : Store :=
  { tables := ["defs"],
    defs := [⟨42, "hello", "world"⟩, ⟨7, "other", "x"⟩, ⟨42, "hello", "w2"⟩] }

/-! Helper lemmas shared by the claim theorems. -/

/-- A successful get_def evaluates to the first matching row in rowid
order (if any) and never touches the disk. -/
theorem get_def_run (st : Store) (server : Int) (command : String) :
    get_def st server command .noFail
      = (st,
          .ret ((st.defs.filter (matchesKey server command)).head?.map Row.defn)) :=
  rfl

/-- A committed insert appends the new row; every other run of ins_def
leaves the disk unchanged. -/
theorem ins_def_disk (st : Store) (server : Int) (command definition : String) :
    (ins_def st server command definition .noFail true).1
        = { st with defs := st.defs ++ [⟨server, command, definition⟩] }
    ∧ ∀ fail commit, ¬(fail = .noFail ∧ commit = true) →
        (ins_def st server command definition fail commit).1 = st := by
  refine ⟨rfl, ?_⟩
  intro fail commit h
  cases fail <;> cases commit <;> first
    | rfl
    | exact absurd ⟨rfl, rfl⟩ h

/-- A committed delete filters out the matching rows; every other run of
del_def leaves the disk unchanged. -/
theorem del_def_disk (st : Store) (server : Int) (command : String) :
    (del_def st server command .noFail true).1
        = { st with
              defs := st.defs.filter (fun row => !(matchesKey server command row)) }
    ∧ ∀ fail commit, ¬(fail = .noFail ∧ commit = true) →
        (del_def st server command fail commit).1 = st := by
  refine ⟨rfl, ?_⟩
  intro fail commit h
  cases fail <;> cases commit <;> first
    | rfl
    | exact absurd ⟨rfl, rfl⟩ h

/-- Filtering by a predicate the kept rows all fail yields nothing. -/
theorem filter_not_filter (p : Row → Bool) (l : List Row) :
    (l.filter (fun r => !(p r))).filter p = [] := by
  induction l with
  | nil => rfl
  | cons a l ih =>
      by_cases h : p a = true <;> simp [List.filter_cons, h, ih]

/-- If no row passes the filter, filtering by its negation keeps the list
whole. -/
theorem filter_not_eq_self (p : Row → Bool) (l : List Row)
    (h : l.filter p = []) : l.filter (fun r => !(p r)) = l := by
  rw [List.filter_eq_self]
  intro a ha
  have hfa := List.filter_eq_nil_iff.mp h a ha
  simp only [Bool.not_eq_true] at hfa
  simp [hfa]

/-! The claims. -/

/-- C1: inserting a definition with commit=True into a store where the
(server, command) pair has no prior row, then reading the pair back with
get_def, returns exactly that definition. -/
theorem C1_ins_then_get (st : Store) (server : Int)
    (command definition : String)
    (h : st.defs.filter (matchesKey server command) = []) :
    (get_def (ins_def st server command definition .noFail true).1
        server command .noFail).2 = .ret (some definition) := by
  rw [(ins_def_disk st server command definition).1]
  simp [get_def_run, List.filter_append, h, matchesKey]

/-- C1 witness: the concrete scenario on the fresh store. -/
theorem C1_ins_then_get_witness :
    (get_def (ins_def freshStore 42 "hello" "world" .noFail true).1
        42 "hello" .noFail).2 = .ret (some "world") :=
  C1_ins_then_get freshStore 42 "hello" "world" (by decide)

/-- C2 counterexample: when sqlite3.connect itself raises, the caught and
printed engine error is followed in the finally branch by db.close() on a
local that was never bound, and the resulting UnboundLocalError propagates
to the caller of the public operation ins_def; so it is false that no
exception ever propagates out of connect. -/
theorem C2_cex :
    (ins_def freshStore 0 "c" "d" .openFail true).2
      = .exn "UnboundLocalError" := rfl

/-- C2 amended: once the connection opens, the handle is closed on every
exit path and an sqlite3.Error raised by statement execution is caught,
printed and suppressed, so the block never ends in a propagating
exception; but when opening the connection itself fails, the engine error
is caught and printed and then an UnboundLocalError propagates to the
caller, no handle having been opened or closed. -/
theorem C2_connect_scope (α : Type) (st : Store) (commit : Bool)
    (body : Store → Store × α) :
    (connect st .noFail body commit).closed = true
    ∧ (connect st .noFail body commit).result = .ok (body st).2
    ∧ (connect st .execFail body commit).closed = true
    ∧ (connect st .execFail body commit).printedError = true
    ∧ (connect st .execFail body commit).result = .suppressed
    ∧ (connect st .openFail body commit).printedError = true
    ∧ (connect st .openFail body commit).opened = false
    ∧ (connect st .openFail body commit).closed = false
    ∧ (connect st .openFail body commit).result = .raised "UnboundLocalError" :=
  ⟨rfl, rfl, rfl, rfl, rfl, rfl, rfl, rfl, rfl⟩

/-- C3 counterexample: a suppressed engine error during the insert makes
ins_def resume after the with block and execute its trailing return False,
so ins_def returns False there, not Python None; the post-block return is
reachable. -/
theorem C3_cex :
    (ins_def freshStore 0 "c" "d" .execFail true).2 = .ret false := rfl

/-- C3 amended: ins_def returns True exactly when the connection opened
and the insert executed without engine error; when an sqlite3.Error from
the execute is suppressed, execution resumes after the with block and the
post-block return False runs, so ins_def returns False and never Python
None; when opening the connection fails, an UnboundLocalError propagates
instead of a return. -/
theorem C3_ins_def_returns (st : Store) (server : Int)
    (command definition : String) (commit : Bool) :
    (ins_def st server command definition .noFail commit).2 = .ret true
    ∧ (ins_def st server command definition .execFail commit).2 = .ret false
    ∧ (ins_def st server command definition .openFail commit).2
        = .exn "UnboundLocalError" :=
  ⟨rfl, rfl, rfl⟩

/-- C4: get_def returns the def column of the first matching row in rowid
order when one or more rows match, returns Python None when no row
matches, and, running on a connection with the default non-committing
flag, never changes the store, whatever the engine failure mode. -/
theorem C4_get_def_spec (st : Store) (server : Int) (command : String) :
    (∀ fail, (get_def st server command fail).1 = st)
    ∧ (∀ r rest, st.defs.filter (matchesKey server command) = r :: rest →
        (get_def st server command .noFail).2 = .ret (some r.defn))
    ∧ (st.defs.filter (matchesKey server command) = [] →
        (get_def st server command .noFail).2 = .ret none) := by
  refine ⟨fun fail => ?_, fun r rest h => ?_, fun h => ?_⟩
  · cases fail <;> rfl
  · simp [get_def_run, h]
  · simp [get_def_run, h]

/-- C4 witness: on a store holding two rows for (42, hello), get_def
returns the first; on a key with no row it returns Python None. -/
theorem C4_get_def_spec_witness :
    (get_def sampleStore 42 "hello" .noFail).2 = .ret (some "world")
    ∧ (get_def sampleStore 1 "missing" .noFail).2 = .ret none :=
  ⟨(C4_get_def_spec sampleStore 42 "hello").2.1
      ⟨42, "hello", "world"⟩ [⟨42, "hello", "w2"⟩] (by decide),
    (C4_get_def_spec sampleStore 1 "missing").2.2 (by decide)⟩

/-- C5: with commit=False every mutating operation leaves the store on
disk unchanged, for every engine failure mode; consequently an insert with
commit=False on a key with no prior row still reads back as Python None,
and a delete with commit=False of a committed value still reads back that
value. -/
theorem C5_rollback_frame (st : Store) (server : Int)
    (command definition : String) :
    (∀ fail, (ins_def st server command definition fail false).1 = st)
    ∧ (∀ fail, (del_def st server command fail false).1 = st)
    ∧ (st.defs.filter (matchesKey server command) = [] →
        (get_def (ins_def st server command definition .noFail false).1
            server command .noFail).2 = .ret none)
    ∧ (∀ v, (get_def st server command .noFail).2 = .ret (some v) →
        (get_def (del_def st server command .noFail false).1
            server command .noFail).2 = .ret (some v)) := by
  have hins : ∀ fail, (ins_def st server command definition fail false).1 = st :=
    fun fail =>
      (ins_def_disk st server command definition).2 fail false
        (fun hc => Bool.false_ne_true hc.2)
  have hdel : ∀ fail, (del_def st server command fail false).1 = st :=
    fun fail =>
      (del_def_disk st server command).2 fail false
        (fun hc => Bool.false_ne_true hc.2)
  refine ⟨hins, hdel, fun h => ?_, fun v h => ?_⟩
  · rw [hins .noFail]
    simp [get_def_run, h]
  · rw [hdel .noFail]
    exact h

/-- C5 witness: a rolled-back insert of a fresh key reads back as Python
None, and a rolled-back delete leaves the committed value readable. -/
theorem C5_rollback_frame_witness :
    (get_def (ins_def sampleStore 5 "new" "z" .noFail false).1
        5 "new" .noFail).2 = .ret none
    ∧ (get_def (del_def sampleStore 42 "hello" .noFail false).1
        42 "hello" .noFail).2 = .ret (some "world") :=
  ⟨(C5_rollback_frame sampleStore 5 "new" "z").2.2.1 (by decide),
    (C5_rollback_frame sampleStore 42 "hello" "z").2.2.2 "world" (by decide)⟩

/-- C6: del_def with commit=True removes every row matching the (server,
command) pair, so a subsequent get_def on that key returns Python None;
and del_def returns the same value (Python None) whatever the store held,
giving the caller no signal of how many rows were deleted. -/
theorem C6_del_then_get (st : Store) (server : Int) (command : String) :
    (get_def (del_def st server command .noFail true).1
        server command .noFail).2 = .ret none
    ∧ ((del_def st server command .noFail true).1).defs.filter
        (matchesKey server command) = []
    ∧ (del_def st server command .noFail true).2 = .ret ()
    ∧ (del_def st server command .noFail true).2
        = (del_def freshStore server command .noFail true).2 := by
  have hfilter :
      ((del_def st server command .noFail true).1).defs.filter
        (matchesKey server command) = [] := by
    rw [(del_def_disk st server command).1]
    exact filter_not_filter (matchesKey server command) st.defs
  refine ⟨?_, hfilter, rfl, rfl⟩
  simp [get_def_run, hfilter]

/-- C7: deleting a (server, command) pair with no matching rows raises no
exception and leaves the entire store unchanged, for both values of the
commit flag; this holds when the engine executes the statement, and also
when an engine error is suppressed mid-statement. -/
theorem C7_del_missing_key (st : Store) (server : Int) (command : String)
    (commit : Bool)
    (h : st.defs.filter (matchesKey server command) = []) :
    del_def st server command .noFail commit = (st, .ret ())
    ∧ del_def st server command .execFail commit = (st, .ret ()) := by
  have h2 := filter_not_eq_self (matchesKey server command) st.defs h
  constructor
  · cases commit
    · rfl
    · have h3 : (del_def st server command .noFail true).1 = st := by
        rw [(del_def_disk st server command).1, h2]
      exact Prod.ext_iff.mpr ⟨h3, rfl⟩
  · cases commit <;> rfl

/-- C7 witness: deleting a key that is not in the sample store returns
Python None and leaves the store intact. -/
theorem C7_del_missing_key_witness :
    del_def sampleStore 9 "nothere" .noFail true = (sampleStore, .ret ()) :=
  (C7_del_missing_key sampleStore 9 "nothere" true (by decide)).1

/-- C8: list_tables on a freshly provisioned store whose schema catalog
holds only the defs table returns exactly the sequence of names [defs],
and leaves the store unchanged. -/
theorem C8_list_tables_fresh :
    (list_tables freshStore .noFail).2 = .ret (some ["defs"])
    ∧ (list_tables freshStore .noFail).1 = freshStore :=
  ⟨rfl, rfl⟩

/-- C9: after the connection handle is released, each mutating operation
leaves the store either fully unchanged or with its mutation fully
applied, for every commit flag and every engine failure mode, including an
engine error mid-operation; no partial write is observable. -/
theorem C9_atomicity (st : Store) (server : Int)
    (command definition : String) (commit : Bool) (fail : Failure) :
    ((ins_def st server command definition fail commit).1 = st
      ∨ (ins_def st server command definition fail commit).1
          = { st with defs := st.defs ++ [⟨server, command, definition⟩] })
    ∧ ((del_def st server command fail commit).1 = st
      ∨ (del_def st server command fail commit).1
          = { st with
                defs := st.defs.filter
                  (fun row => !(matchesKey server command row)) }) := by
  cases fail <;> cases commit <;>
    first
      | exact ⟨Or.inl rfl, Or.inl rfl⟩
      | exact ⟨Or.inr rfl, Or.inr rfl⟩

/-- C10: commit defaults to False in connect, sql_execute, list_tables,
ins_def and del_def — each call omitting commit equals the call passing
False — and ins_def and del_def invoked without an explicit commit leave
the store unchanged for every engine failure mode, persisting nothing. -/
theorem C10_commit_defaults (st : Store) (server : Int)
    (command definition : String) (fail : Failure) (α : Type)
    (body : Store → Store × α) (stmt : Store → Store × List Row) :
    connect st fail body = connect st fail body false
    ∧ sql_execute st stmt fail = sql_execute st stmt fail false
    ∧ list_tables st fail = list_tables st fail false
    ∧ ins_def st server command definition fail
        = ins_def st server command definition fail false
    ∧ del_def st server command fail = del_def st server command fail false
    ∧ (ins_def st server command definition fail).1 = st
    ∧ (del_def st server command fail).1 = st := by
  refine ⟨rfl, rfl, rfl, rfl, rfl, ?_, ?_⟩ <;> cases fail <;> rfl

end Database
